import Mathlib

/-
Verification of the selection-state reconciliation subsystem of the ANU
timetable viewer (src/src/App.js): the query-parameter codec, the occurrence
spec parser (getSpecOccurrences), the three reducers (selectedModulesReducer,
changeOccurrences, changeHidden), and the module normalizer (processModule and
the setModules effect).

Modelling conventions:
* JavaScript objects used as string-keyed records are association lists
  `List (String × String)` (or with record values), read through `lookupKey`,
  which returns the first binding like JavaScript property lookup does.
* The reducers in App.js write to the URL by calling setQueryParam /
  unsetQueryParam as side effects; here each reducer returns its next state
  together with the list of `Effect`s it issued, in issue order, and
  `applyEffects` replays them against an explicit query-state value.
* A reducer that throws (the `default: throw new Error()` branches) is
  modelled as returning `none`: no state and no effects escape, matching the
  exception aborting the transition.
* JavaScript `===` on module objects compares references, so a module object
  is modelled as a `Module` structure carrying a reference identity `ref`
  besides its `id` field; two structurally distinct objects get distinct refs.
-/

namespace Timetable

/-- URL query state: an association list from parameter name to value,
standing for the browser's query string. -/
abbrev QueryState := List (String × String)

/-- First-binding lookup in an association list, like JavaScript property
access on an object. -/
def lookupKey {α : Type} : List (String × α) → String → Option α
  | [], _ => none
  | (k, v) :: rest, key => if k = key then some v else lookupKey rest key

/-- Replace the value of the first binding of `k` in place, or append a new
binding, like the JavaScript spread `{...acc, [k]: v}` on objects. -/
def setKey {α : Type} : List (String × α) → String → α → List (String × α)
  | [], k, v => [(k, v)]
  | (k', v') :: rest, k, v =>
    if k' = k then (k, v) :: rest else (k', v') :: setKey rest k v

/-- Remove every binding of `k`. -/
def removeKey {α : Type} (l : List (String × α)) (k : String) : List (String × α) :=
  l.filter (fun p => !(p.1 == k))

/-- One URL write issued by a reducer: `set name value` is a call
`setQueryParam(name, value)` (with `value = none` for the one-argument call
`setQueryParam(name)` that stores a presence-only flag), `unset name` is a
call `unsetQueryParam(name)`. -/
inductive Effect where
  | set (name : String) (value : Option String)
  | unset (name : String)
deriving DecidableEq

/-- Modelled from the spec: the query-param codec setParam/unsetParam lives in
src/utils.js, which is not part of the sources; per the spec, `setParam(name,
value)` sets or replaces the parameter and an empty `value` is equivalent to
`unsetParam`; the one-argument form stores a presence-only flag (empty value
meaning "module selected with no occurrence chosen"); `unsetParam` removes
the parameter if present and is a no-op otherwise. -/
def applyEffect (q : QueryState) : Effect → QueryState
  | .set n none => setKey q n ""
  | .set n (some v) => if v = "" then removeKey q n else setKey q n v
  | .unset n => removeKey q n

/-- Replay a reducer's writes, in issue order, against a query state. -/
def applyEffects (q : QueryState) (effs : List Effect) : QueryState :=
  effs.foldl applyEffect q

/-! ### Module normalizer (App.js lines 78-80) -/

/-- Does the three-character window `c c1 c2` match the JavaScript regular
expression `_[A-Z][1-9]` of `processModule`'s `title.replace`? -/
def isTag (c c1 c2 : Char) : Bool :=
  c == '_' && (decide ('A' ≤ c1) && decide (c1 ≤ 'Z'))
    && (decide ('1' ≤ c2) && decide (c2 ≤ '9'))

/-- Remove the leftmost substring matching `_[A-Z][1-9]`, if any: the
character-list semantics of `title.replace(/_[A-Z][1-9]/, '')`. -/
def stripTagAux : List Char → List Char
  | [] => []
  | c :: cs =>
    match cs with
    | c1 :: c2 :: rest => if isTag c c1 c2 then rest else c :: stripTagAux cs
    | _ => c :: stripTagAux cs

/-- The `title.replace(/_[A-Z][1-9]/, '')` call of `processModule`. -/
def stripTag (s : String) : String :=
  String.mk (stripTagAux s.toList)

/-- Does the string contain a substring matching `_[A-Z][1-9]`? -/
def containsTag : List Char → Bool
  | [] => false
  | c :: cs =>
    match cs with
    | c1 :: c2 :: _ => isTag c c1 c2 || containsTag cs
    | _ => containsTag cs

/-- App.js line 78: `({ classes, id, title, ...module }) => ({ title:
title.replace(/_[A-Z][1-9]/, ''), ...module })`. The destructuring removes
the `classes`, `id` and `title` properties from the rest object, so the
result holds the rewritten title followed by every other property unchanged;
`classes` and `id` are dropped. A missing title is read as `""` (the
JavaScript code would throw there; the claims only concern entries that carry
a title). -/
def processModule (entry : List (String × String)) : List (String × String) :=
  ("title", stripTag ((lookupKey entry "title").getD "")) ::
    entry.filter (fun p => !(p.1 == "classes") && !(p.1 == "id") && !(p.1 == "title"))

/-- App.js line 80: `key.split('_')[0]`, the module code of a composite
dataset key — the prefix of the key up to the first underscore. -/
def normKey (k : String) : String :=
  String.mk (k.toList.takeWhile (fun c => !(c == '_')))

/-- App.js line 80: the `setModules` effect,
`Object.entries(timetableData).reduce((acc, [key, module]) => ({ ...acc,
[key.split('_')[0]]: processModule(module) }), {})`, over the dataset's
entries in iteration order. -/
def buildModules (data : List (String × List (String × String))) :
    List (String × List (String × String)) :=
  data.foldl (fun acc e => setKey acc (normKey e.1) (processModule e.2)) []

/-! ### Occurrence spec parser (App.js lines 108-117) -/

/-- Accumulator pass of `splitComma`; `acc` holds the current segment's
characters in reverse. -/
def splitCommaAux : List Char → List Char → List String
  | [], acc => [String.mk acc.reverse]
  | c :: cs, acc =>
    if c = ',' then String.mk acc.reverse :: splitCommaAux cs []
    else splitCommaAux cs (c :: acc)

/-- The JavaScript `occurrences.split(',')`: splits on every comma, so
`""` yields `[""]` and adjacent commas yield empty segments. -/
def splitComma (s : String) : List String :=
  splitCommaAux s.toList []

/-- Value of a digit-run, as `parseInt` computes it on a digit string. -/
def digitsToNat (l : List Char) : Nat :=
  l.foldl (fun a c => 10 * a + (c.toNat - '0'.toNat)) 0

/-- The maximal trailing digit run of a token. -/
def trailingDigits (o : String) : List Char :=
  (o.toList.reverse.takeWhile Char.isDigit).reverse

/-- The maximal non-digit run immediately before the trailing digit run. -/
def groupPart (o : String) : List Char :=
  ((o.toList.reverse.dropWhile Char.isDigit).takeWhile (fun c => !c.isDigit)).reverse

/-- The JavaScript match `o.match(/([^0-9]*)([0-9]+)$/)` of App.js line 111.
The pattern is unanchored at the left, so the leftmost match exists exactly
when the token ends in a digit, and it captures the maximal non-digit run
immediately preceding the maximal trailing digit run (group 1) and that digit
run (group 2, never empty when the match exists, so the `!r[2]` guard of line
112 never fires on a successful match). -/
def matchTrail (o : String) : Option (String × Nat) :=
  if trailingDigits o = [] then none
  else some (String.mk (groupPart o), digitsToNat (trailingDigits o))

/-- One token of the per-module occurrence string, App.js lines 110-116:
empty tokens and tokens of unselected modules yield nothing, a failed match
yields nothing (with a console diagnostic), a successful match yields the
single triple `[module, r[1], parseInt(r[2])]`. -/
def parseOccToken (selected : List String) (module : String) (o : String) :
    List (String × String × Nat) :=
  if o = "" ∨ module ∉ selected then []
  else
    match matchTrail o with
    | none => []
    | some (g, n) => [(module, g, n)]

/-- App.js lines 108-117, `getSpecOccurrences`: flat-map over the
`(module, occurrences)` pairs, splitting each occurrence string on commas and
flat-mapping the per-token parser; `selectedIds` stands for
`selectedModules.map(({id}) => id)`. -/
def getSpecOccurrences (m : List (String × String)) (selectedIds : List String) :
    List (String × String × Nat) :=
  m.flatMap (fun p => (splitComma p.2).flatMap (parseOccToken selectedIds p.1))

/-- Does the token end in a digit, i.e. does the regular expression
`([^0-9]*)([0-9]+)$` match it? -/
def endsWithDigitRun (o : String) : Bool :=
  !(trailingDigits o).isEmpty

/-! ### Selection reducer (App.js lines 83-100) -/

/-- A selected-module object: `id` is its `id` field, `ref` its JavaScript
object identity, so that `List.contains` (structural equality on the pair)
coincides with the `Array.includes` reference comparison of the code. -/
structure Module where
  ref : Nat
  id : String
deriving DecidableEq

/-- App.js lines 83-100, `selectedModulesReducer`: unset the parameter of
every state module no longer present in `updatedModules` (membership by
object identity), then set the parameter of every `updatedModules` module not
present in the state, and return `updatedModules` unchanged. -/
def selectedModulesReducer (state updatedModules : List Module) :
    List Module × List Effect :=
  (updatedModules,
    (state.filter (fun m => !(updatedModules.contains m))).map
        (fun m => Effect.unset m.id)
      ++ (updatedModules.filter (fun m => !(state.contains m))).map
        (fun m => Effect.set m.id none))

/-! ### Occurrence reducer (App.js lines 119-133) -/

/-- An action dispatched to `changeOccurrences`: a `type` string and a
`values` triple `[module, groupId, occurrence]`. -/
structure OccAction where
  type : String
  values : String × String × Nat
deriving DecidableEq

/-- App.js lines 119-133, `changeOccurrences`: on `select`, set the module's
parameter to `groupId + occurrence` and append the triple; on `reset`, set
the module's parameter to `''` and drop every triple equal to the action's
triple componentwise; any other type throws (`none`). -/
def changeOccurrences (state : List (String × String × Nat)) (action : OccAction) :
    Option (List (String × String × Nat) × List Effect) :=
  if action.type = "select" then
    some (state ++ [action.values],
      [Effect.set action.values.1 (some (action.values.2.1 ++ toString action.values.2.2))])
  else if action.type = "reset" then
    some (state.filter (fun t => decide (t ≠ action.values)),
      [Effect.set action.values.1 (some "")])
  else
    none

/-! ### Hidden-events reducer (App.js lines 137-153) -/

/-- An action dispatched to `changeHidden`: a `type` string and, for `hide`,
the event key `values`, an ordered tuple of identifying components. -/
structure HideAction where
  type : String
  values : List String
deriving DecidableEq

/-- App.js lines 137-153, `changeHidden`: on `reset`, unset the `hide`
parameter and return `[]`; on `hide`, compute
`state.map(x => x.join('_')).join(',')` from the CURRENT state, set the
`hide` parameter to it when nonempty and unset it otherwise, then return the
state with the new key appended; any other type throws (`none`). -/
def changeHidden (state : List (List String)) (action : HideAction) :
    Option (List (List String) × List Effect) :=
  if action.type = "reset" then
    some ([], [Effect.unset "hide"])
  else if action.type = "hide" then
    let hide := String.intercalate "," (state.map (fun x => String.intercalate "_" x))
    some (state ++ [action.values],
      if hide.length > 0 then [Effect.set "hide" (some hide)] else [Effect.unset "hide"])
  else
    none

/-! ### Running a reducer against an explicit query state -/

/-- Run one occurrence action: reducer transition plus replaying its URL
writes; `none` models the reducer throwing. -/
def runOccurrences (s : List (String × String × Nat)) (q : QueryState)
    (a : OccAction) : Option (List (String × String × Nat) × QueryState) :=
  (changeOccurrences s a).map (fun r => (r.1, applyEffects q r.2))

/-- Run one hidden-events action: reducer transition plus replaying its URL
writes; `none` models the reducer throwing. -/
def runHidden (s : List (List String)) (q : QueryState)
    (a : HideAction) : Option (List (List String) × QueryState) :=
  (changeHidden s a).map (fun r => (r.1, applyEffects q r.2))

/-! ### Helper lemmas -/

theorem lookupKey_setKey {α : Type} (l : List (String × α)) (k c : String) (v : α) :
    lookupKey (setKey l k v) c = if k = c then some v else lookupKey l c := by
  induction l with
  | nil => simp [setKey, lookupKey]
  | cons p rest ih =>
    obtain ⟨k', v'⟩ := p
    by_cases h1 : k' = k
    · subst h1
      by_cases h2 : k' = c
      · subst h2; simp [setKey, lookupKey]
      · simp [setKey, lookupKey, h2]
    · by_cases h2 : k' = c
      · subst h2
        have hkc : ¬ k = k' := fun h => h1 h.symm
        simp [setKey, lookupKey, h1, hkc]
      · simp [setKey, lookupKey, h1, h2, ih]


theorem filter_self_filter {α : Type} (p : α → Bool) (l : List α) :
    (l.filter p).filter p = l.filter p := by
  induction l with
  | nil => simp
  | cons a rest ih =>
    by_cases h : p a = true
    · simp [List.filter_cons, h, ih]
    · simp only [Bool.not_eq_true] at h
      simp [List.filter_cons, h, ih]

theorem removeKey_removeKey {α : Type} (l : List (String × α)) (k : String) :
    removeKey (removeKey l k) k = removeKey l k :=
  filter_self_filter _ _

theorem removeKey_setKey {α : Type} (l : List (String × α)) (k : String) (v : α) :
    removeKey (setKey l k v) k = removeKey l k := by
  induction l with
  | nil => simp [setKey, removeKey]
  | cons p rest ih =>
    obtain ⟨k', v'⟩ := p
    by_cases h1 : k' = k
    · subst h1
      simp [setKey, removeKey]
    · have ih' := ih
      simp only [removeKey, List.filter_cons] at ih' ⊢
      simp [setKey, h1, ih']

theorem lookupKey_filter_of_true {α : Type} (l : List (String × α))
    (f : String → Bool) (k : String) (h : f k = true) :
    lookupKey (l.filter (fun p => f p.1)) k = lookupKey l k := by
  induction l with
  | nil => simp
  | cons p rest ih =>
    by_cases h1 : p.1 = k
    · simp [List.filter_cons, h1, h, lookupKey, ih]
    · by_cases h2 : f p.1 = true
      · simp [List.filter_cons, h2, lookupKey, h1, ih]
      · simp only [Bool.not_eq_true] at h2
        simp [List.filter_cons, h2, lookupKey, h1, ih]

theorem lookupKey_filter_of_false {α : Type} (l : List (String × α))
    (f : String → Bool) (k : String) (h : f k = false) :
    lookupKey (l.filter (fun p => f p.1)) k = none := by
  induction l with
  | nil => simp [lookupKey]
  | cons p rest ih =>
    by_cases h1 : p.1 = k
    · simp [List.filter_cons, h1, h, ih]
    · by_cases h2 : f p.1 = true
      · simp [List.filter_cons, h2, lookupKey, h1, ih]
      · simp only [Bool.not_eq_true] at h2
        simp [List.filter_cons, h2, ih]

theorem lookupKey_removeKey {α : Type} (l : List (String × α)) (k : String) :
    lookupKey (removeKey l k) k = none := by
  have h := lookupKey_filter_of_false l (fun x => !(x == k)) k (by simp)
  simpa [removeKey] using h

theorem removeKey_applyEffect_set (q : QueryState) (k : String)
    (v : Option String) :
    removeKey (applyEffect q (Effect.set k v)) k = removeKey q k := by
  cases v with
  | none => simp [applyEffect, removeKey_setKey]
  | some s =>
    by_cases h : s = ""
    · simp [applyEffect, h, removeKey_removeKey]
    · simp [applyEffect, h, removeKey_setKey]

theorem flatMap_if_filter_map {α : Type} (l : List String) (p : String → Bool)
    (g : String → α) :
    (l.flatMap (fun t => if p t then [g t] else [])) = (l.filter p).map g := by
  induction l with
  | nil => simp
  | cons a rest ih =>
    by_cases h : p a = true
    · simp [List.flatMap_cons, h, List.filter_cons, ih]
    · simp only [Bool.not_eq_true] at h
      simp [List.flatMap_cons, h, List.filter_cons, ih]

theorem stripTagAux_cons3 (c c1 c2 : Char) (rest : List Char) :
    stripTagAux (c :: c1 :: c2 :: rest)
      = if isTag c c1 c2 then rest else c :: stripTagAux (c1 :: c2 :: rest) := rfl

theorem containsTag_cons3 (c c1 c2 : Char) (rest : List Char) :
    containsTag (c :: c1 :: c2 :: rest)
      = (isTag c c1 c2 || containsTag (c1 :: c2 :: rest)) := rfl

theorem stripTagAux_of_not_containsTag (l : List Char)
    (h : containsTag l = false) : stripTagAux l = l := by
  induction l with
  | nil => rfl
  | cons c cs ih =>
    cases cs with
    | nil => rfl
    | cons c1 cs1 =>
      cases cs1 with
      | nil => rfl
      | cons c2 rest =>
        rw [containsTag_cons3, Bool.or_eq_false_iff] at h
        rw [stripTagAux_cons3, if_neg (by simp [h.1]), ih h.2]

theorem parseOccToken_eq (S : List String) (mod t : String) :
    parseOccToken S mod t
      = if endsWithDigitRun t && S.contains mod
          then [(mod, String.mk (groupPart t), digitsToNat (trailingDigits t))]
          else [] := by
  by_cases hm : mod ∈ S
  · have hc : S.contains mod = true := List.elem_iff.mpr hm
    by_cases ht : t = ""
    · subst ht
      have h0 : endsWithDigitRun "" = false := by decide
      simp [parseOccToken, h0]
    · by_cases hd : trailingDigits t = []
      · simp [parseOccToken, ht, hm, matchTrail, hd, endsWithDigitRun]
      · simp [parseOccToken, ht, hm, matchTrail, hd, endsWithDigitRun,
          List.isEmpty_iff, hc]
  · have hc : S.contains mod = false := by
      simpa using fun h => hm (List.elem_iff.mp h)
    simp [parseOccToken, hm, hc]

/-! ### Claim theorems -/

/-- C1 (code bug evidence): in `changeHidden` the aggregated `hide` parameter
is computed from the sequence BEFORE the new key is appended, so from the
empty post-reset state, dispatching hide([1,2]) and then hide([3,4]) leaves
the `hide` parameter at "1_2" — the value the claim and the spec require,
"1_2,3_4", is never written. -/
theorem claim1_hide_param_lags_one_dispatch :
    ((runHidden [] [] ⟨"hide", ["1", "2"]⟩).bind
        (fun r => runHidden r.1 r.2 ⟨"hide", ["3", "4"]⟩))
      = some ([["1", "2"], ["3", "4"]], [("hide", "1_2")])
    ∧ lookupKey [("hide", "1_2")] "hide" ≠ some "1_2,3_4" := by decide

/-- C2 (counterexample): the claim fails for a stored sequence that already
contains the dispatched triple — `reset` removes every matching triple, so
select("M","G",1) followed by reset("M","G",1) on the sequence [("M","G",1)]
yields [], not the original sequence. -/
theorem claim2_counterexample :
    ((runOccurrences [("M", "G", 1)] [] ⟨"select", ("M", "G", 1)⟩).bind
        (fun r => runOccurrences r.1 r.2 ⟨"reset", ("M", "G", 1)⟩))
      = some ([], [])
    ∧ ([] : List (String × String × Nat)) ≠ [("M", "G", 1)] := by decide

/-- C2 (amended): for every stored sequence s NOT already containing the
triple (m,g,n), dispatching select(m,g,n) then reset(m,g,n) returns the
stored sequence to s and leaves module m's query parameter unset. -/
theorem claim2_select_reset_roundtrip (s : List (String × String × Nat))
    (q : QueryState) (m g : String) (n : Nat) (h : (m, g, n) ∉ s) :
    ((runOccurrences s q ⟨"select", (m, g, n)⟩).bind
        (fun r => runOccurrences r.1 r.2 ⟨"reset", (m, g, n)⟩))
      = some (s, removeKey q m)
    ∧ lookupKey (removeKey q m) m = none := by
  refine ⟨?_, lookupKey_removeKey q m⟩
  have hsel : runOccurrences s q ⟨"select", (m, g, n)⟩
      = some (s ++ [(m, g, n)],
          applyEffect q (Effect.set m (some (g ++ toString n)))) := by
    simp [runOccurrences, changeOccurrences, applyEffects]
  have hres : ∀ q1, runOccurrences (s ++ [(m, g, n)]) q1 ⟨"reset", (m, g, n)⟩
      = some (s, removeKey q1 m) := by
    intro q1
    simp [runOccurrences, changeOccurrences, applyEffects, applyEffect]
    intro a a1 b0 hmem ham hag hbn
    subst ham
    subst hag
    subst hbn
    exact h hmem
  rw [hsel]
  simp only [Option.some_bind]
  rw [hres, removeKey_applyEffect_set]

/-- C2 (witness for the amended round-trip at a concrete input). -/
theorem claim2_select_reset_roundtrip_witness :
    ((runOccurrences [("A", "B", 2)] [("Z", "w")] ⟨"select", ("M", "G", 1)⟩).bind
        (fun r => runOccurrences r.1 r.2 ⟨"reset", ("M", "G", 1)⟩))
      = some ([("A", "B", 2)], removeKey [("Z", "w")] "M")
    ∧ lookupKey (removeKey [("Z", "w")] "M") "M" = none :=
  claim2_select_reset_roundtrip _ _ _ _ _ (by decide)

/-- C6: an action whose type is not a recognized kind of its reducer makes
the reducer throw — modelled as `none`: no next state and no query-parameter
write escape the transition, so the failure is atomic. -/
theorem claim6_unknown_action_throws (s : List (String × String × Nat))
    (a : OccAction) (hs : List (List String)) (ha : HideAction)
    (h1 : a.type ≠ "select") (h2 : a.type ≠ "reset")
    (h3 : ha.type ≠ "hide") (h4 : ha.type ≠ "reset") :
    changeOccurrences s a = none ∧ changeHidden hs ha = none := by
  constructor
  · simp [changeOccurrences, h1, h2]
  · simp [changeHidden, h3, h4]

/-- C6 (witness at a concrete unknown action kind). -/
theorem claim6_unknown_action_throws_witness :
    changeOccurrences [] ⟨"bogus", ("", "", 0)⟩ = none
    ∧ changeHidden [] ⟨"bogus", []⟩ = none :=
  claim6_unknown_action_throws [] ⟨"bogus", ("", "", 0)⟩ [] ⟨"bogus", []⟩
    (by decide) (by decide) (by decide) (by decide)

/-- C9: dispatching reset twice in a row is a no-op the second time, for both
the hidden-events reducer (state and `hide` parameter unchanged by the second
reset) and the occurrence reducer (stored sequence and module parameter
unchanged by the second reset(m,g,n)). -/
theorem claim9_reset_idempotent (hs : List (List String)) (hq : QueryState)
    (hv : List String) (s : List (String × String × Nat)) (q : QueryState)
    (m g : String) (n : Nat) :
    ((runHidden hs hq ⟨"reset", hv⟩).bind
        (fun r => runHidden r.1 r.2 ⟨"reset", hv⟩)
      = runHidden hs hq ⟨"reset", hv⟩)
    ∧ ((runOccurrences s q ⟨"reset", (m, g, n)⟩).bind
        (fun r => runOccurrences r.1 r.2 ⟨"reset", (m, g, n)⟩)
      = runOccurrences s q ⟨"reset", (m, g, n)⟩) := by
  have hocc : ∀ (st : List (String × String × Nat)) (qq : QueryState),
      runOccurrences st qq ⟨"reset", (m, g, n)⟩
        = some (st.filter (fun t => decide (t ≠ (m, g, n))), removeKey qq m) := by
    intro st qq
    simp [runOccurrences, changeOccurrences, applyEffects, applyEffect]
  constructor
  · simp [runHidden, changeHidden, applyEffects, applyEffect, removeKey_removeKey]
  · simp [hocc, filter_self_filter, removeKey_removeKey]


/-- The Boolean `List.contains` of the code's `Array.includes` agrees with
decidable list membership. -/
theorem contains_eq_decide {α : Type} [DecidableEq α] (l : List α) (a : α) :
    l.contains a = decide (a ∈ l) := by
  by_cases h : a ∈ l
  · simp [List.elem_iff, h]
  · simp [List.elem_iff, h]

/-- C3: the parser output is the in-order concatenation, over the pairs, of
one triple per comma-separated token that is matched by the pattern
`([^0-9]*)([0-9]+)$` (equivalently, carries a nonempty trailing digit run)
and whose module is selected — in module order then token order, with no
deduplication — and a single token contributes exactly one triple iff it is
matched and its module is selected, and zero triples otherwise, leaving
sibling tokens and other pairs unaffected. -/
theorem claim3_parser_characterization (pairs : List (String × String))
    (S : List String) :
    (getSpecOccurrences pairs S
      = pairs.flatMap (fun p =>
          ((splitComma p.2).filter
              (fun t => endsWithDigitRun t && S.contains p.1)).map
            (fun t => (p.1, String.mk (groupPart t), digitsToNat (trailingDigits t)))))
    ∧ ∀ (mod t : String),
        ((parseOccToken S mod t).length = 1
          ↔ (endsWithDigitRun t = true ∧ mod ∈ S))
        ∧ ((parseOccToken S mod t).length = 1 ∨ parseOccToken S mod t = []) := by
  have hfn : parseOccToken S = fun mod t =>
      if endsWithDigitRun t && S.contains mod
        then [(mod, String.mk (groupPart t), digitsToNat (trailingDigits t))]
        else [] :=
    funext (fun mod => funext (fun t => parseOccToken_eq S mod t))
  constructor
  · simp only [getSpecOccurrences, hfn, flatMap_if_filter_map]
  · intro mod t
    rw [parseOccToken_eq]
    by_cases hc : (endsWithDigitRun t && S.contains mod) = true
    · have hab : endsWithDigitRun t = true ∧ S.contains mod = true := by
        simpa using hc
      rw [if_pos hc]
      refine ⟨?_, Or.inl rfl⟩
      exact ⟨fun _ => ⟨hab.1, List.elem_iff.mp hab.2⟩, fun _ => rfl⟩
    · rw [if_neg hc]
      refine ⟨⟨fun hlen => absurd hlen (by simp), ?_⟩, Or.inr rfl⟩
      rintro ⟨ha, hmem⟩
      have hb : S.contains mod = true := List.elem_iff.mpr hmem
      exact absurd (by rw [ha, hb]; rfl) hc

/-- C7 (counterexample): a token consisting solely of digits DOES contribute
a triple, with an empty group id — the regular expression's group-id capture
is `[^0-9]*`, zero or more non-digits, not one or more. -/
theorem claim7_counterexample :
    getSpecOccurrences [("M", "12")] ["M"] = [("M", "", 12)]
    ∧ ¬ (∀ tr ∈ getSpecOccurrences [("M", "12")] ["M"], tr.2.1 ≠ "") := by decide

/-- C7 (amended): every triple produced by the parser has a group id made of
zero or more non-digit characters (every character of the group id is a
non-digit; the group id may be empty). -/
theorem claim7_groupId_all_nondigit (pairs : List (String × String))
    (S : List String) (mod g : String) (n : Nat)
    (h : (mod, g, n) ∈ getSpecOccurrences pairs S) :
    g.toList.all (fun c => !c.isDigit) = true := by
  rcases List.mem_flatMap.mp h with ⟨p, _, hmem⟩
  rcases List.mem_flatMap.mp hmem with ⟨t, _, htok⟩
  rw [parseOccToken_eq] at htok
  by_cases hc : (endsWithDigitRun t && S.contains p.1) = true
  · rw [if_pos hc] at htok
    simp only [List.mem_singleton] at htok
    have hg : g = String.mk (groupPart t) :=
      congrArg (fun z : String × String × Nat => z.2.1) htok
    rw [hg]
    rw [List.all_eq_true]
    intro c hcmem
    have hc2 : c ∈ groupPart t := hcmem
    have hc3 : c ∈ (t.toList.reverse.dropWhile Char.isDigit).takeWhile
        (fun x => !x.isDigit) := List.mem_reverse.mp hc2
    have hc4 := List.mem_takeWhile_imp hc3
    simpa using hc4
  · rw [if_neg hc] at htok
    exact absurd htok (List.not_mem_nil _)

/-- C7 (witness for the amended statement at a concrete input). -/
theorem claim7_groupId_all_nondigit_witness :
    ("M", "Ab", 12) ∈ getSpecOccurrences [("M", "Ab12")] ["M"]
    ∧ "Ab".toList.all (fun c => !c.isDigit) = true :=
  ⟨by decide, claim7_groupId_all_nondigit [("M", "Ab12")] ["M"] "M" "Ab" 12 (by decide)⟩

/-- C4: from selected modules [A, B], dispatching [B, C] (with B the same
object in both sequences and the three ids pairwise distinct) unsets A's
parameter, sets C's parameter, writes nothing else — in particular nothing
touches B's parameter — and returns the new sequence unchanged. -/
theorem claim4_selection_diff (rA rB rC : Nat) (iA iB iC : String)
    (hAB : iA ≠ iB) (hAC : iA ≠ iC) (hBC : iB ≠ iC) :
    selectedModulesReducer [⟨rA, iA⟩, ⟨rB, iB⟩] [⟨rB, iB⟩, ⟨rC, iC⟩]
      = ([⟨rB, iB⟩, ⟨rC, iC⟩], [Effect.unset iA, Effect.set iC none]) := by
  simp [selectedModulesReducer, contains_eq_decide, List.filter_cons,
    Module.mk.injEq, hAB, hAC, hBC, Ne.symm hAB, Ne.symm hAC, Ne.symm hBC]

/-- C4 (witness at concrete modules). -/
theorem claim4_selection_diff_witness :
    selectedModulesReducer [⟨0, "A"⟩, ⟨1, "B"⟩] [⟨1, "B"⟩, ⟨2, "C"⟩]
      = ([⟨1, "B"⟩, ⟨2, "C"⟩], [Effect.unset "A", Effect.set "C" none]) :=
  claim4_selection_diff 0 1 2 "A" "B" "C" (by decide) (by decide) (by decide)

/-- C10: the selection reducer diffs by object identity, not module id — a
new object with the same id but a different reference makes the transition
unset the id's parameter (old object treated as removed) and then set it
again (new object treated as added), while the very same object in both
sequences produces no write at all. -/
theorem claim10_object_identity (r1 r2 : Nat) (i : String) (x : Module)
    (h : r1 ≠ r2) :
    selectedModulesReducer [⟨r1, i⟩] [⟨r2, i⟩]
        = ([⟨r2, i⟩], [Effect.unset i, Effect.set i none])
    ∧ selectedModulesReducer [x] [x] = ([x], []) := by
  constructor
  · simp [selectedModulesReducer, contains_eq_decide, Module.mk.injEq, h,
      Ne.symm h]
  · simp [selectedModulesReducer, contains_eq_decide]

/-- C10 (witness at a concrete pair of same-id, different-reference
objects). -/
theorem claim10_object_identity_witness :
    selectedModulesReducer [⟨0, "M"⟩] [⟨1, "M"⟩]
        = ([⟨1, "M"⟩], [Effect.unset "M", Effect.set "M" none])
    ∧ selectedModulesReducer [⟨5, "X"⟩] [⟨5, "X"⟩] = ([⟨5, "X"⟩], []) :=
  claim10_object_identity 0 1 "M" ⟨5, "X"⟩ (by decide)

/-- C5 (counterexample): the claim fails on the code in four ways, shown at
concrete entries: the replacement is not anchored to the end of the title
("A_B2C" has no trailing tag yet is rewritten to "AC", and only the FIRST of
several tags is removed), only uppercase letters and digits 1-9 match
("T_a1" and "T_A0" are left unchanged although the claim strips any letter
and any digit), and the raw `classes` field is dropped from the record
instead of passed through. -/
theorem claim5_counterexample :
    lookupKey (processModule [("title", "A_B2C"), ("classes", "x")]) "title"
        ≠ some "A_B2C"
    ∧ lookupKey (processModule [("title", "A_B2C"), ("classes", "x")]) "classes"
        = none
    ∧ processModule [("title", "A_B2C"), ("classes", "x")] = [("title", "AC")]
    ∧ processModule [("title", "T_a1")] = [("title", "T_a1")]
    ∧ processModule [("title", "T_A0")] = [("title", "T_A0")]
    ∧ processModule [("title", "T_A1_B2")] = [("title", "T_B2")] := by decide

/-- C5 (amended): the normalized record's title equals the raw title with the
FIRST substring matching `_<UPPERCASE LETTER><DIGIT 1-9>` removed (titles
containing no such substring are unchanged); every raw field other than
`classes`, `id` and `title` is present with its value unchanged, and the raw
`classes` and `id` fields are dropped. -/
theorem claim5_normalizer (entry : List (String × String)) (t : String)
    (h : lookupKey entry "title" = some t) :
    lookupKey (processModule entry) "title" = some (stripTag t)
    ∧ (∀ k, k ≠ "classes" → k ≠ "id" → k ≠ "title" →
        lookupKey (processModule entry) k = lookupKey entry k)
    ∧ lookupKey (processModule entry) "classes" = none
    ∧ lookupKey (processModule entry) "id" = none
    ∧ (containsTag t.toList = false → stripTag t = t) := by
  refine ⟨?_, ?_, ?_, ?_, ?_⟩
  · simp [processModule, lookupKey, h]
  · intro k hk1 hk2 hk3
    have hfr := lookupKey_filter_of_true entry
      (fun x => !(x == "classes") && !(x == "id") && !(x == "title")) k
      (by simp [hk1, hk2, hk3])
    simp only [processModule, lookupKey, if_neg (Ne.symm hk3)]
    exact hfr
  · have hfr := lookupKey_filter_of_false entry
      (fun x => !(x == "classes") && !(x == "id") && !(x == "title")) "classes"
      (by simp)
    simp only [processModule, lookupKey,
      if_neg (by decide : ¬ ("title" : String) = "classes")]
    exact hfr
  · have hfr := lookupKey_filter_of_false entry
      (fun x => !(x == "classes") && !(x == "id") && !(x == "title")) "id"
      (by simp)
    simp only [processModule, lookupKey,
      if_neg (by decide : ¬ ("title" : String) = "id")]
    exact hfr
  · intro hct
    rcases t with ⟨d⟩
    show String.mk (stripTagAux d) = ⟨d⟩
    rw [stripTagAux_of_not_containsTag d hct]

/-- C5 (witness for the amended statement at a concrete entry). -/
theorem claim5_normalizer_witness :
    lookupKey [("title", "T_A1 x"), ("link", "u"), ("classes", "c")] "title"
        = some "T_A1 x"
    ∧ (lookupKey (processModule [("title", "T_A1 x"), ("link", "u"), ("classes", "c")])
          "title" = some (stripTag "T_A1 x")
      ∧ (∀ k, k ≠ "classes" → k ≠ "id" → k ≠ "title" →
          lookupKey (processModule [("title", "T_A1 x"), ("link", "u"), ("classes", "c")]) k
            = lookupKey [("title", "T_A1 x"), ("link", "u"), ("classes", "c")] k)
      ∧ lookupKey (processModule [("title", "T_A1 x"), ("link", "u"), ("classes", "c")])
          "classes" = none
      ∧ lookupKey (processModule [("title", "T_A1 x"), ("link", "u"), ("classes", "c")])
          "id" = none
      ∧ (containsTag "T_A1 x".toList = false → stripTag "T_A1 x" = "T_A1 x")) :=
  ⟨by decide, claim5_normalizer _ _ (by decide)⟩

/-- C8: the normalized catalog maps each module code (the composite key cut
at its first underscore) to the processed record of the LAST dataset entry in
iteration order whose key normalizes to that code — a total last-write-wins
merge with no conflict reporting. -/
theorem claim8_last_write_wins (data : List (String × List (String × String)))
    (c : String) :
    lookupKey (buildModules data) c
      = ((data.filter (fun e => normKey e.1 == c)).getLast?).map
          (fun e => processModule e.2) := by
  induction data using List.reverseRecOn with
  | nil => simp [buildModules, lookupKey]
  | append_singleton l e ih =>
    have hb : buildModules (l ++ [e])
        = setKey (buildModules l) (normKey e.1) (processModule e.2) := by
      simp [buildModules, List.foldl_append]
    rw [hb, lookupKey_setKey, List.filter_append]
    by_cases hc : normKey e.1 = c
    · simp [hc, List.getLast?_concat]
    · have hcb : (normKey e.1 == c) = false := by simp [hc]
      simp [hcb, hc, ih]


end Timetable
